import Mathlib

/-!
Verification of the Blue Marble template tiling and compositing engine

Shallow embedding of the template core of this repository:
* `Template.createTemplateTiles` (tile slicing, pixel classification,
  chunk rendering, tile-key generation),
* the palette nearest-color / nearest-index searches,
* `TemplateManager` state operations: `createTemplate`, `removeTemplate`,
  `setTemplateEnabled`, the lazy index-map reconstruction
  `#ensureIndexMapForTemplateTile`, and the per-template bitmap selection
  performed by `drawTemplateOnTile`.

JavaScript numbers appearing in these code paths are non-negative integers
(pixel and tile coordinates, sizes, counters); they are modelled as `Nat`.
JavaScript objects used as string-keyed maps are modelled as association
lists (`List (String × α)`) with JS property-assignment semantics
(`insertA`: overwrite in place when the key exists, append otherwise).
External platform services (PNG encoding via `convertToBlob`, the
GreaseMonkey key-value store, the status sink, the zoom signal) are either
parameters or recorded abstractly in the state.
-/

/-- One RGBA pixel (byte values). -/
structure RGBA where
  r : Nat
  g : Nat
  b : Nat
  a : Nat
  deriving DecidableEq, Repr

/-- A decoded bitmap: width, height and flattened row-major RGBA byte data,
mirroring what `getImageData` exposes.  Out-of-range reads in the JS code go
through `|| 0` / `| 0`, so reads below use `List.getD _ _ 0`. -/
structure Bitmap where
  width : Nat
  height : Nat
  data : List Nat
  deriving DecidableEq, Repr

/-- A decoded source image (the result of `createImageBitmap(file)`); the
pixel grid is a function so arbitrary images can be described. -/
structure Img where
  width : Nat
  height : Nat
  pix : Nat → Nat → RGBA

/-- A per-region palette-index grid, as stored in
`colorIndexTiles[key] = { w, h, data }`. -/
structure IndexTile where
  w : Nat
  h : Nat
  data : List Nat
  deriving DecidableEq, Repr

/-- JS object property assignment `m[k] = v` on a string-keyed object:
overwrite the existing entry in place, otherwise append. -/
def insertA (m : List (String × α)) (k : String) (v : α) : List (String × α) :=
  if m.any (fun p => p.1 = k) then
    m.map (fun p => if p.1 = k then (k, v) else p)
  else m ++ [(k, v)]

/-! ## Decimal printing (`Number.prototype.toString` and `padStart`)

`natChars n` is the decimal digit list of `n` without leading zeros, the
JS `n.toString()` for a non-negative integer.  It is written with explicit
fuel so that it reduces definitionally (witnesses evaluate it with `decide`).
-/

def natCharsAux : Nat → Nat → List Char
  | 0, _ => []
  | fuel + 1, n =>
    if n < 10 then [Nat.digitChar n]
    else natCharsAux fuel (n / 10) ++ [Nat.digitChar (n % 10)]

def natChars (n : Nat) : List Char := natCharsAux (n + 1) n

/-- JS `s.padStart(w, '0')` on a digit list. -/
def padLeft (w : Nat) (s : List Char) : List Char :=
  List.replicate (w - s.length) '0' ++ s

def natToString (n : Nat) : String := ⟨natChars n⟩

/-- The `"{TTTT},{TTTT},{PPP},{PPP}"` key built at
`createTemplateTiles` for the region whose top-left absolute pixel
coordinate is `(x, y)`, given the anchor tile coordinates `(c0, c1)`.
The source divides by the literal `1000`, not by `this.tileSize`:

```
`${(this.coords[0] + Math.floor(pixelX / 1000)).toString().padStart(4, '0')},...
 ...,${(pixelX % 1000).toString().padStart(3, '0')},...`
``` -/
def templateTileName (c0 c1 x y : Nat) : String :=
  ⟨padLeft 4 (natChars (c0 + x / 1000)) ++ ',' ::
   (padLeft 4 (natChars (c1 + y / 1000)) ++ ',' ::
    (padLeft 3 (natChars (x % 1000)) ++ ',' ::
     padLeft 3 (natChars (y % 1000))))⟩

/-! ## Palette and nearest-color search (`Template.#nearestPaletteRGB`,
`Template.#nearestPaletteIndex`)

The palette `colorpalette` lives in `src/utils`, outside the provided
sources; the search functions are therefore parameterised by the palette
list.  An entry's `rgb` may be missing (`c.rgb || []` destructures to
`undefined`), modelled with `Option`. -/

structure PaletteEntry where
  name : String
  rgb : Option (Nat × Nat × Nat)
  deriving DecidableEq, Repr

/-- Squared Euclidean RGB distance `dr*dr + dg*dg + db*db`. -/
def rgbDist (r g b : Nat) (p : Nat × Nat × Nat) : Int :=
  ((r : Int) - p.1) * ((r : Int) - p.1) +
  ((g : Int) - p.2.1) * ((g : Int) - p.2.1) +
  ((b : Int) - p.2.2) * ((b : Int) - p.2.2)

/-- Comparison `dist < bestDist` where `bestDist` starts at `Infinity` (`none`). -/
def ltInf (d : Int) : Option Int → Bool
  | none => true
  | some d' => d < d'

/-- The scan loop of `#nearestPaletteRGB`: skip entries named
`"Transparent"` and entries without an rgb triple; keep the first strict
improvement of the squared distance. -/
def nearestRGBAux (r g b : Nat) :
    List PaletteEntry → Option (Nat × Nat × Nat) → Option Int → Option (Nat × Nat × Nat)
  | [], best, _ => best
  | c :: rest, best, bestDist =>
    if c.name = "Transparent" then nearestRGBAux r g b rest best bestDist
    else
      match c.rgb with
      | none => nearestRGBAux r g b rest best bestDist
      | some p =>
        if ltInf (rgbDist r g b p) bestDist then
          nearestRGBAux r g b rest (some p) (some (rgbDist r g b p))
        else nearestRGBAux r g b rest best bestDist

/-- Embedding of `Template.#nearestPaletteRGB`: returns `best || [r, g, b]`. -/
def nearestPaletteRGB (palette : List PaletteEntry) (r g b : Nat) : Nat × Nat × Nat :=
  (nearestRGBAux r g b palette none none).getD (r, g, b)

/-- The scan loop of `#nearestPaletteIndex`, over entries paired with their
position in the full ordered palette; `bestIndex` starts at `1` ("Black"). -/
def nearestIdxAux (r g b : Nat) :
    List (Nat × PaletteEntry) → Nat → Option Int → Nat
  | [], best, _ => best
  | c :: rest, best, bestDist =>
    if c.2.name = "Transparent" then nearestIdxAux r g b rest best bestDist
    else
      match c.2.rgb with
      | none => nearestIdxAux r g b rest best bestDist
      | some p =>
        if ltInf (rgbDist r g b p) bestDist then
          nearestIdxAux r g b rest c.1 (some (rgbDist r g b p))
        else nearestIdxAux r g b rest best bestDist

/-- Embedding of `Template.#nearestPaletteIndex`. -/
def nearestPaletteIndex (palette : List PaletteEntry) (r g b : Nat) : Nat :=
  nearestIdxAux r g b palette.enum 1 none

/-! ## Pixel classification (inner loop of `createTemplateTiles`)

`orig` and `mapped` start as copies of the source pixel; the branches below
mirror the `#DEFACE` / non-transparent / transparent cases of the source:

```
if (r === 222 && g === 250 && b === 206) { ... } else if (a !== 0) { ... } else { ... }
``` -/

structure ClassifiedPixel where
  orig : RGBA
  mapped : RGBA
  idx : Nat
  deriving DecidableEq, Repr

def classifyPixel (palette : List PaletteEntry) (src : RGBA) (x y : Nat) : ClassifiedPixel :=
  if src.r = 222 ∧ src.g = 250 ∧ src.b = 206 then
    if (x + y) % 2 = 0 then
      -- translucent black: rgba fully overwritten in both buffers
      { orig := ⟨0, 0, 0, 32⟩, mapped := ⟨0, 0, 0, 32⟩, idx := 0 }
    else
      -- transparent: only the alpha byte is zeroed, rgb keeps the copied value
      { orig := { src with a := 0 }, mapped := { src with a := 0 }, idx := 0 }
  else if src.a ≠ 0 then
    { orig := { src with a := 255 },
      mapped := { r := (nearestPaletteRGB palette src.r src.g src.b).1,
                  g := (nearestPaletteRGB palette src.r src.g src.b).2.1,
                  b := (nearestPaletteRGB palette src.r src.g src.b).2.2,
                  a := 255 },
      idx := nearestPaletteIndex palette src.r src.g src.b }
  else
    { orig := src, mapped := src, idx := 0 }

/-! ## The slicing loops of `createTemplateTiles`

The outer loops walk absolute pixel coordinates starting at the anchor
offsets; each step consumes
`min(tileSize - (coord % tileSize), extent - (coord - anchor))` pixels:

```
for (let pixelY = this.coords[3]; pixelY < imageHeight + this.coords[3]; ) {
  const drawSizeY = Math.min(this.tileSize - (pixelY % this.tileSize),
                             imageHeight - (pixelY - this.coords[3]));
  ...
  pixelY += drawSizeY;
}
```

The loop is embedded with fuel (`ext` iterations suffice once
`tileSize > 0`, because each step advances by at least one pixel). -/

def sliceStep (tileSize p0 ext x : Nat) : Nat :=
  min (tileSize - x % tileSize) (ext - (x - p0))

def sliceSegsAux (tileSize p0 ext : Nat) : Nat → Nat → List (Nat × Nat)
  | 0, _ => []
  | fuel + 1, x =>
    if x < ext + p0 then
      (x, sliceStep tileSize p0 ext x) ::
        sliceSegsAux tileSize p0 ext fuel (x + sliceStep tileSize p0 ext x)
    else []

/-- The list of `(absoluteStart, size)` segments produced along one axis. -/
def sliceSegs (tileSize p0 ext : Nat) : List (Nat × Nat) :=
  sliceSegsAux tileSize p0 ext ext p0

/-- One region produced by the slicing loops: its tile key, the absolute
pixel coordinates `(x, y)` of its top-left corner (`pixelX`, `pixelY` in the
source) and its size `(w, h)` (`drawSizeX`, `drawSizeY`). -/
structure Region where
  key : String
  x : Nat
  y : Nat
  w : Nat
  h : Nat
  deriving DecidableEq, Repr

/-- All regions of one slicing run, in loop order (`y` outer, `x` inner),
for an image of size `W × H`, anchor tile `(c0, c1)` and anchor pixel
offsets `(px0, py0)`. -/
def sliceRegions (tileSize px0 py0 W H c0 c1 : Nat) : List Region :=
  (sliceSegs tileSize py0 H).flatMap (fun yd =>
    (sliceSegs tileSize px0 W).map (fun xd =>
      { key := templateTileName c0 c1 xd.1 yd.1
        x := xd.1, y := yd.1, w := xd.2, h := yd.2 }))

/-! ## Chunk rendering (`renderToBitmap`, `renderToBitmapNoMask`)

The region buffer is drawn into a canvas scaled by the odd factor
`shreadSize = 3` with nearest-neighbor smoothing, then (for the masked
variant) multiplied via `destination-in` with a repeating `3×3` pattern
whose only opaque pixel is the center `(1,1)`.  Pixels removed by the mask
are fully transparent. -/

/-- Nearest-neighbor upscale by `k` without the mask (solid preview). -/
def renderToBitmapNoMask (k w h : Nat) (pxl : Nat → Nat → RGBA) : Bitmap :=
  { width := w * k, height := h * k,
    data := (List.range (h * k)).flatMap (fun Y =>
      (List.range (w * k)).flatMap (fun X =>
        let p := pxl (X / k) (Y / k)
        [p.r, p.g, p.b, p.a])) }

/-- Nearest-neighbor upscale by `k` with the repeating center-pixel mask. -/
def renderToBitmap (k w h : Nat) (pxl : Nat → Nat → RGBA) : Bitmap :=
  { width := w * k, height := h * k,
    data := (List.range (h * k)).flatMap (fun Y =>
      (List.range (w * k)).flatMap (fun X =>
        if X % k = k / 2 ∧ Y % k = k / 2 then
          let p := pxl (X / k) (Y / k)
          [p.r, p.g, p.b, p.a]
        else [0, 0, 0, 0])) }

/-! ## `createTemplateTiles`

Per region the source builds the original / palette-mapped buffers and the
index grid, renders the four bitmap variants, encodes the masked original
variant for export, and stores everything under the region's tile key.
PNG encoding (`convertToBlob` + `uint8ToBase64`) is an external platform
service, passed in as `encode`. -/

structure SliceOut where
  templateTiles : List (String × Bitmap)
  templateTilesAuto : List (String × Bitmap)
  templateTilesFull : List (String × Bitmap)
  templateTilesAutoFull : List (String × Bitmap)
  templateTilesBuffers : List (String × String)
  colorIndexTiles : List (String × IndexTile)
  pixelCount : Nat
  deriving DecidableEq

def createTemplateTiles (palette : List PaletteEntry) (encode : Bitmap → String)
    (img : Img) (coords : Nat × Nat × Nat × Nat) (tileSize : Nat) : SliceOut :=
  let shreadSize := 3
  let px0 := coords.2.2.1
  let py0 := coords.2.2.2
  let regions := sliceRegions tileSize px0 py0 img.width img.height coords.1 coords.2.1
  regions.foldl
    (fun acc reg =>
      -- the small-canvas crop of the source at this region
      let crop : Nat → Nat → RGBA := fun x y => img.pix (reg.x - px0 + x) (reg.y - py0 + y)
      let cls : Nat → Nat → ClassifiedPixel := fun x y => classifyPixel palette (crop x y) x y
      let idxList : List Nat :=
        (List.range reg.h).flatMap (fun y => (List.range reg.w).map (fun x => (cls x y).idx))
      let bmpOriginal := renderToBitmap shreadSize reg.w reg.h (fun x y => (cls x y).orig)
      let bmpOriginalFull := renderToBitmapNoMask shreadSize reg.w reg.h (fun x y => (cls x y).orig)
      let bmpAuto := renderToBitmap shreadSize reg.w reg.h (fun x y => (cls x y).mapped)
      let bmpAutoFull := renderToBitmapNoMask shreadSize reg.w reg.h (fun x y => (cls x y).mapped)
      { acc with
        colorIndexTiles := insertA acc.colorIndexTiles reg.key
          { w := reg.w, h := reg.h, data := idxList }
        templateTiles := insertA acc.templateTiles reg.key bmpOriginal
        templateTilesFull := insertA acc.templateTilesFull reg.key bmpOriginalFull
        templateTilesAuto := insertA acc.templateTilesAuto reg.key bmpAuto
        templateTilesAutoFull := insertA acc.templateTilesAutoFull reg.key bmpAutoFull
        templateTilesBuffers := insertA acc.templateTilesBuffers reg.key (encode bmpOriginal) })
    { templateTiles := [], templateTilesAuto := [], templateTilesFull := []
      templateTilesAutoFull := [], templateTilesBuffers := [], colorIndexTiles := []
      pixelCount := img.width * img.height }

/-! ## `Template` instances and the `TemplateManager` state

`Template` keeps what the manager reads and writes: identification, the
`enabled` flag, the four chunk maps (absent on imported templates, hence
`Option`), the active `chunked` map, the index-grid store and `pixelCount`.
The manager state follows the constructor of `TemplateManager`; the
persistence store (`GM.setValue('bmTemplates', ...)`) is recorded as the
last value written (`none` when nothing has been written). -/

structure Template where
  displayName : String
  sortID : Nat
  authorID : String
  idKey : String
  enabled : Bool
  chunked : List (String × Bitmap)
  chunkedAuto : Option (List (String × Bitmap)) := none
  chunkedOriginal : Option (List (String × Bitmap)) := none
  chunkedAutoFull : Option (List (String × Bitmap)) := none
  chunkedOriginalFull : Option (List (String × Bitmap)) := none
  colorIndexTiles : List (String × IndexTile) := []
  pixelCount : Nat := 0
  deriving DecidableEq

/-- One entry of the persisted `templates` object. -/
structure JSONTemplate where
  name : String
  coords : String
  enabled : Bool
  tiles : List (String × String)
  deriving DecidableEq

structure TemplatesJSON where
  whoami : String
  scriptVersion : String
  schemaVersion : String
  templates : List (String × JSONTemplate)
  deriving DecidableEq

structure ManagerState where
  name : String
  version : String
  templatesVersion : String := "1.0.0"
  tileSize : Nat := 1000
  drawMult : Nat := 3
  templatesArray : List Template := []
  templatesJSON : Option TemplatesJSON := none
  autoColorLive : Bool := true
  mergedTileCache : List (String × String) := []
  cacheVersion : Nat := 0
  maxTemplates : Nat := 10
  store : Option (Option TemplatesJSON) := none
  deriving DecidableEq

/-- Embedding of `TemplateManager.createJSON`. -/
def createJSON (name version schemaVersion : String) : TemplatesJSON :=
  { whoami := name.replace " " "", scriptVersion := version
    schemaVersion := schemaVersion, templates := [] }

/-- Embedding of `#storeTemplates`: write the current JSON object to the key-value store. -/
def storeTemplates (st : ManagerState) : ManagerState :=
  { st with store := some st.templatesJSON }

/-- The identifier the manager matches against:
`x?.idKey || `${x?.sortID} ${x?.authorID}`` (the empty string is falsy). -/
def effectiveIdKey (t : Template) : String :=
  if t.idKey = "" then natToString t.sortID ++ " " ++ t.authorID else t.idKey

/-- Computation of `nextSortID`: lowest unused non-negative integer (the `while` loop,
with fuel; at most `used.length` values can be taken). -/
def lowestUnusedAux (used : List Nat) : Nat → Nat → Nat
  | 0, n => n
  | fuel + 1, n => if used.contains n then lowestUnusedAux used fuel (n + 1) else n

def lowestUnused (used : List Nat) : Nat := lowestUnusedAux used (used.length + 1) 0

/-- JS `coords.join(', ')`. -/
def coordsJoin (coords : Nat × Nat × Nat × Nat) : String :=
  natToString coords.1 ++ ", " ++ natToString coords.2.1 ++ ", " ++
  natToString coords.2.2.1 ++ ", " ++ natToString coords.2.2.2

/-- Embedding of `TemplateManager.createTemplate`.  The image arrives already decoded
(`createImageBitmap` is the external decode service); `authorEncoded` is
`numberToEncoded(this.userID || 0, this.encodingBase)` computed by the
missing `utils` module; `encode` is the PNG/base64 encoding service.
Status/error display calls are pure sinks and have no state effect. -/
def createTemplate (palette : List PaletteEntry) (encode : Bitmap → String)
    (st : ManagerState) (img : Img) (name : String)
    (coords : Nat × Nat × Nat × Nat) (autoColor : Bool) (authorEncoded : String) :
    ManagerState :=
  -- `if (!this.templatesJSON) { this.templatesJSON = await this.createJSON(); }`
  let json0 := st.templatesJSON.getD (createJSON st.name st.version st.templatesVersion)
  let st := { st with templatesJSON := some json0 }
  -- `if (this.templatesArray.length >= this.maxTemplates) { ...error...; return; }`
  if st.templatesArray.length ≥ st.maxTemplates then st
  else
    let nextSortID := lowestUnused (st.templatesArray.map Template.sortID)
    let idKey := natToString nextSortID ++ " " ++ authorEncoded
    -- `createTemplateTiles` runs with the Template's own tileSize (default 1000)
    let out := createTemplateTiles palette encode img coords 1000
    let tpl : Template :=
      { displayName := name, sortID := nextSortID, authorID := authorEncoded
        idKey := idKey, enabled := true
        -- `(this.autoColorLive || autoColor) ? (chunkedAuto || templateTiles) : ...`
        chunked := if st.autoColorLive || autoColor then out.templateTilesAuto
                   else out.templateTiles
        chunkedAuto := some out.templateTilesAuto
        chunkedOriginal := some out.templateTiles
        chunkedAutoFull := some out.templateTilesAutoFull
        chunkedOriginalFull := some out.templateTilesFull
        colorIndexTiles := out.colorIndexTiles
        pixelCount := out.pixelCount }
    let json1 := { json0 with templates := (insertA json0.templates idKey
      { name := name, coords := coordsJoin coords, enabled := true
        tiles := out.templateTilesBuffers }) }
    storeTemplates
      { st with
        templatesArray := st.templatesArray ++ [tpl]
        templatesJSON := some json1
        cacheVersion := st.cacheVersion + 1
        mergedTileCache := [] }

/-- Delete a property from a string-keyed object (`delete obj[key]`). -/
def deleteA (m : List (String × α)) (k : String) : List (String × α) :=
  m.filter (fun p => p.1 ≠ k)

/-- Embedding of `TemplateManager.removeTemplate`: filter the array, delete the JSON
entry when an element was actually removed and the entry exists, then
unconditionally bump `cacheVersion`, clear the cache, and persist. -/
def removeTemplate (st : ManagerState) (idKey : String) : ManagerState :=
  let beforeLen := st.templatesArray.length
  let arr := st.templatesArray.filter (fun x => effectiveIdKey x ≠ idKey)
  let json :=
    if beforeLen ≠ arr.length ∧
        (st.templatesJSON.elim false (fun j => (j.templates.lookup idKey).isSome)) then
      st.templatesJSON.map (fun j => { j with templates := deleteA j.templates idKey })
    else st.templatesJSON
  storeTemplates
    { st with templatesArray := arr, templatesJSON := json
              cacheVersion := st.cacheVersion + 1, mergedTileCache := [] }

/-- Replace the first matching element of a list (the source mutates the
object found by `find`). -/
def updateFirst (p : α → Bool) (f : α → α) : List α → List α
  | [] => []
  | x :: xs => if p x then f x :: xs else x :: updateFirst p f xs

/-- Embedding of `TemplateManager.setTemplateEnabled`: return early when no template
matches; otherwise set the flag, mirror it into the JSON entry when
present, bump `cacheVersion`, clear the cache, and persist. -/
def setTemplateEnabled (st : ManagerState) (idKey : String) (enabled : Bool) :
    ManagerState :=
  match st.templatesArray.find? (fun t => effectiveIdKey t = idKey) with
  | none => st
  | some _ =>
    let arr := updateFirst (fun t => effectiveIdKey t = idKey)
      (fun t => { t with enabled := enabled }) st.templatesArray
    let json :=
      if st.templatesJSON.elim false (fun j => (j.templates.lookup idKey).isSome) then
        st.templatesJSON.map (fun j =>
          { j with templates := (updateFirst (fun p => p.1 = idKey)
              (fun p => (p.1, { p.2 with enabled := enabled })) j.templates) })
      else st.templatesJSON
    storeTemplates
      { st with templatesArray := arr, templatesJSON := json
                cacheVersion := st.cacheVersion + 1, mergedTileCache := [] }

/-! ## Lazy index-map reconstruction (`#ensureIndexMapForTemplateTile`)

Decodes the stored masked bitmap of a chunk, downsamples by the render
factor (sampling the center pixel of each block), and caches the resulting
grid into `colorIndexTiles[key]`.  The guards mirror the source: an empty
`key` is falsy, an already-populated entry returns immediately, and a
missing bitmap or zero dimension aborts.  The local `nearestIdx` closure is
the same scan as `Template.#nearestPaletteIndex`. -/

/-- JS `Math.round(a / b)` for non-negative `a` and positive `b`
(round half toward positive infinity). -/
def mathRoundDiv (a b : Nat) : Nat := (2 * a + b) / (2 * b)

def ensureIndexMapForTemplateTile (palette : List PaletteEntry) (drawMult : Nat)
    (tpl : Template) (key : String) : Template :=
  if key = "" then tpl
  else if (tpl.colorIndexTiles.lookup key).isSome then tpl -- already computed
  else
    match tpl.chunked.lookup key with
    | none => tpl
    | some bmp =>
      if bmp.width = 0 ∨ bmp.height = 0 then tpl
      else
        let dm := max 1 drawMult -- Math.max(1, Number(this.drawMult) || 1)
        let w := max 1 (mathRoundDiv bmp.width dm)
        let h := max 1 (mathRoundDiv bmp.height dm)
        let mid := dm / 2
        let idxMap : List Nat :=
          (List.range h).flatMap (fun y => (List.range w).map (fun x =>
            let sx := x * dm + mid
            let sy := y * dm + mid
            let p := (sy * bmp.width + sx) * 4
            let a := bmp.data.getD (p + 3) 0
            if a = 0 then 0
            else nearestPaletteIndex palette (bmp.data.getD p 0)
                   (bmp.data.getD (p + 1) 0) (bmp.data.getD (p + 2) 0)))
        { tpl with colorIndexTiles := (insertA tpl.colorIndexTiles key
            { w := w, h := h, data := idxMap }) }

/-! ## Per-template bitmap selection at render time (`drawTemplateOnTile`)

For one enabled template and one requested tile the source collects the
chunk keys of `template.chunked` whose key starts with the padded tile
coordinate, keeps the first one, and reads its bitmap from the map selected
by the live auto-color toggle:

```
const sourceMap = this.autoColorLive
  ? (template.chunkedAuto || template.chunked)
  : (template.chunkedOriginal || template.chunked);
const sourceMapFull = this.autoColorLive
  ? (template.chunkedAutoFull || sourceMap)
  : (template.chunkedOriginalFull || sourceMap);
...
return { bitmap: sourceMap[tile], ... }
```

The zoom mode is consulted only for the `globalAlpha` used when drawing
(`this.zoomOpacity` when zoomed out, `1` otherwise). -/

def sourceMapOf (autoColorLive : Bool) (t : Template) : List (String × Bitmap) :=
  if autoColorLive then t.chunkedAuto.getD t.chunked else t.chunkedOriginal.getD t.chunked

def sourceMapFullOf (autoColorLive : Bool) (t : Template) : List (String × Bitmap) :=
  if autoColorLive then t.chunkedAutoFull.getD (sourceMapOf autoColorLive t)
  else t.chunkedOriginalFull.getD (sourceMapOf autoColorLive t)

inductive DrawAlpha
  | zoomOpacityVal -- `this.zoomOpacity` (0.4, drawn when zoomed out)
  | fullOpacity    -- `globalAlpha = 1` (zoomed in)
  deriving DecidableEq, Repr

/-- What `drawTemplateOnTile` draws for one template on one tile: the
bitmap picked from the selected chunk map, the tile/pixel coordinate
fields split off the chunk key, and the opacity chosen by zoom mode. -/
structure TemplateDraw where
  bitmap : Option Bitmap
  tileCoordsOf : List String
  pixelCoordsOf : List String
  alpha : DrawAlpha
  deriving DecidableEq, Repr

/-- JS `tile.startsWith(tileCoords)`, on the underlying character lists. -/
def strStartsWith (s pre : String) : Bool := pre.data.isPrefixOf s.data

/-- JS `tile.split(',')`: split a character list at every comma. -/
def splitOnComma : List Char → List (List Char)
  | [] => [[]]
  | a :: t =>
    if a = ',' then [] :: splitOnComma t
    else
      match splitOnComma t with
      | h :: r => (a :: h) :: r
      | [] => [[a]]

def strSplitOnComma (s : String) : List String := (splitOnComma s.data).map String.mk

def firstMatchingTileKey (t : Template) (pfx : String) : Option String :=
  ((t.chunked.map Prod.fst).filter (fun k => strStartsWith k pfx)).head?

def drawnTemplateBitmap (autoColorLive zoomedOut : Bool) (t : Template)
    (pfx : String) : Option TemplateDraw :=
  match firstMatchingTileKey t pfx with
  | none => none
  | some tile =>
    some { bitmap := (sourceMapOf autoColorLive t).lookup tile
           tileCoordsOf := (strSplitOnComma tile).take 2
           pixelCoordsOf := (strSplitOnComma tile).drop 2
           alpha := if zoomedOut then DrawAlpha.zoomOpacityVal else DrawAlpha.fullOpacity }

/-! ## Definitions modelled from the spec (for refinement comparisons) -/

/-- Modelled from the spec: "select the bitmap source set by `colorMode`
(auto vs. original) crossed with mask-vs-full governed by `zoomMode`", the
full variant being used when zoomed out and the masked one when zoomed in. -/
def specSelectedMap (autoColorLive zoomedOut : Bool) (t : Template) :
    List (String × Bitmap) :=
  if zoomedOut then
    if autoColorLive then t.chunkedAutoFull.getD t.chunked
    else t.chunkedOriginalFull.getD t.chunked
  else
    if autoColorLive then t.chunkedAuto.getD t.chunked
    else t.chunkedOriginal.getD t.chunked

/-- Modelled from the spec: the tile key whose first two fields are the
anchor tile coordinate plus `⌊absoluteCoord / tileSize⌋` (zero-padded to 4
digits) and whose last two fields are `absoluteCoord % tileSize`
(zero-padded to 3 digits), `tileSize` being the template's tile size. -/
def specTileKey (tileSize c0 c1 x y : Nat) : String :=
  ⟨padLeft 4 (natChars (c0 + x / tileSize)) ++ ',' ::
   (padLeft 4 (natChars (c1 + y / tileSize)) ++ ',' ::
    (padLeft 3 (natChars (x % tileSize)) ++ ',' ::
     padLeft 3 (natChars (y % tileSize))))⟩

/-- First element of a list attaining the minimum of `f`, ties broken by
position (the earlier element wins). -/
def firstMinBy (f : α → Int) : List α → Option α
  | [] => none
  | x :: xs =>
    match firstMinBy f xs with
    | none => some x
    | some y => if f x ≤ f y then some x else some y

/-- Modelled from the spec: "scans all non-\"Transparent\" entries, computes
squared Euclidean RGB distance, returns the first entry achieving the
minimum (stable tie-break by palette order). Falls back to the input color
if the palette is empty." -/
def specNearestColor (palette : List PaletteEntry) (r g b : Nat) : Nat × Nat × Nat :=
  (firstMinBy (rgbDist r g b)
    ((palette.filter (fun e => e.name ≠ "Transparent")).filterMap PaletteEntry.rgb)).getD
    (r, g, b)

/-! ## Verification helpers -/

/-- The rgb triples actually scanned by the palette loops: entries named
`"Transparent"` and entries without an rgb triple are skipped. -/
def scanRGBs (l : List PaletteEntry) : List (Nat × Nat × Nat) :=
  l.filterMap (fun c => if c.name = "Transparent" then none else c.rgb)

/-- Decimal value of a digit string (left fold); leading `'0'` padding does
not change the value, which is what makes `padStart`-ed keys comparable. -/
def charsVal (l : List Char) : Nat :=
  l.foldl (fun acc c => acc * 10 + (c.toNat - 48)) 0

/-- The `templates` object of an optional persisted-JSON value (an absent
JSON object holds no templates). -/
def templatesOf (o : Option TemplatesJSON) : List (String × JSONTemplate) :=
  o.elim [] TemplatesJSON.templates

/-! ## Concrete fixtures for witnesses and counterexamples -/

def encodeEx : Bitmap → String := fun _ => ""

def imgEx : Img := ⟨1, 1, fun _ _ => ⟨0, 0, 0, 0⟩⟩

def keyEx : String := "0000,0000,000,000"

def bmOrigMasked : Bitmap := ⟨3, 3, [1]⟩
def bmAutoMasked : Bitmap := ⟨3, 3, [2]⟩
def bmOrigFull : Bitmap := ⟨3, 3, [3]⟩
def bmAutoFull : Bitmap := ⟨3, 3, [4]⟩

/-- A template holding all four chunk-map variants, with distinguishable
bitmaps for the same chunk key. -/
def tplDraw : Template :=
  { displayName := "T", sortID := 0, authorID := "$Z", idKey := "0 $Z", enabled := true
    chunked := [(keyEx, bmAutoMasked)]
    chunkedAuto := some [(keyEx, bmAutoMasked)]
    chunkedOriginal := some [(keyEx, bmOrigMasked)]
    chunkedAutoFull := some [(keyEx, bmAutoFull)]
    chunkedOriginalFull := some [(keyEx, bmOrigFull)] }

def tplA : Template :=
  { displayName := "A", sortID := 0, authorID := "A", idKey := "0 A", enabled := true
    chunked := [] }

def jsonEx : TemplatesJSON :=
  { whoami := "BlueMarble", scriptVersion := "0.82.1"
    schemaVersion := "1.0.0", templates := [] }

/-- A loaded state with one template, a cached merged tile and no
persistence write yet. -/
def stOne : ManagerState :=
  { name := "Blue Marble", version := "0.82.1", templatesArray := [tplA]
    templatesJSON := some jsonEx, cacheVersion := 5
    mergedTileCache := [("0000,0000|auto|mask|v5", "blob")], store := none }

/-- A state at capacity: `maxTemplates` (= 10) loaded templates. -/
def stFull : ManagerState :=
  { name := "Blue Marble", version := "0.82.1"
    templatesArray := List.replicate 10 tplA
    templatesJSON := some jsonEx, cacheVersion := 3 }

/-- A template whose index grid for `keyEx` is already populated. -/
def tplIdx : Template :=
  { displayName := "I", sortID := 1, authorID := "A", idKey := "1 A", enabled := true
    chunked := [(keyEx, bmOrigMasked)]
    colorIndexTiles := [(keyEx, ⟨1, 1, [3]⟩)] }

def palBW : List PaletteEntry :=
  [⟨"Transparent", some (0, 0, 0)⟩, ⟨"Black", some (0, 0, 0)⟩,
   ⟨"White", some (255, 255, 255)⟩]

/-! # Theorems

Decimal-string machinery

`padStart`-ed decimal fields are compared through their numeric value
(`charsVal`), which ignores leading zero padding; commas never occur inside
a field, so the four fields of a tile key can be recovered from the full
string. -/

theorem digitChar_ne_comma (m : Nat) : Nat.digitChar m ≠ ',' := by
  rcases Nat.lt_or_ge m 16 with h | h
  · interval_cases m <;> decide
  · unfold Nat.digitChar
    repeat rw [if_neg (by omega)]
    decide

theorem digitChar_toNat (m : Nat) (h : m < 10) : (Nat.digitChar m).toNat - 48 = m := by
  interval_cases m <;> decide

theorem natCharsAux_congr : ∀ (n f₁ f₂ : Nat), n < f₁ → n < f₂ →
    natCharsAux f₁ n = natCharsAux f₂ n := by
  intro n
  induction n using Nat.strong_induction_on with
  | _ n ih =>
    intro f₁ f₂ h₁ h₂
    match f₁, f₂ with
    | k₁ + 1, k₂ + 1 =>
      simp only [natCharsAux]
      by_cases h10 : n < 10
      · rw [if_pos h10, if_pos h10]
      · rw [if_neg h10, if_neg h10]
        have hd : n / 10 < n := Nat.div_lt_self (by omega) (by omega)
        rw [ih (n / 10) hd k₁ k₂ (by omega) (by omega)]

theorem natChars_eq (n : Nat) : natChars n =
    if n < 10 then [Nat.digitChar n]
    else natChars (n / 10) ++ [Nat.digitChar (n % 10)] := by
  by_cases h10 : n < 10
  · rw [if_pos h10]
    show natCharsAux (n + 1) n = _
    simp only [natCharsAux]
    rw [if_pos h10]
  · rw [if_neg h10]
    have hstep : natCharsAux (n + 1) n
        = natCharsAux n (n / 10) ++ [Nat.digitChar (n % 10)] := by
      simp only [natCharsAux]
      rw [if_neg h10]
    show natCharsAux (n + 1) n = _
    rw [hstep, natCharsAux_congr (n / 10) n (n / 10 + 1) (by omega) (by omega)]
    rfl

theorem natChars_ne_comma : ∀ (n : Nat), ∀ c ∈ natChars n, c ≠ ',' := by
  intro n
  induction n using Nat.strong_induction_on with
  | _ n ih =>
    intro c hc
    rw [natChars_eq] at hc
    by_cases h10 : n < 10
    · rw [if_pos h10] at hc
      simp only [List.mem_singleton] at hc
      exact hc ▸ digitChar_ne_comma n
    · rw [if_neg h10] at hc
      rcases List.mem_append.1 hc with h | h
      · exact ih (n / 10) (Nat.div_lt_self (by omega) (by omega)) c h
      · simp only [List.mem_singleton] at h
        exact h ▸ digitChar_ne_comma (n % 10)

theorem padLeft_natChars_ne_comma (w n : Nat) :
    ∀ c ∈ padLeft w (natChars n), c ≠ ',' := by
  intro c hc
  rcases List.mem_append.1 hc with h | h
  · rw [List.eq_of_mem_replicate h]; decide
  · exact natChars_ne_comma n c h

theorem charsVal_go_natChars : ∀ (n : Nat) (acc : Nat),
    (natChars n).foldl (fun acc c => acc * 10 + (c.toNat - 48)) acc
      = acc * 10 ^ (natChars n).length + n := by
  intro n
  induction n using Nat.strong_induction_on with
  | _ n ih =>
    intro acc
    rw [natChars_eq]
    by_cases h10 : n < 10
    · rw [if_pos h10]
      simp only [List.foldl_cons, List.foldl_nil, List.length_singleton]
      rw [digitChar_toNat n h10]
      ring
    · rw [if_neg h10]
      rw [List.foldl_append]
      have hd : n / 10 < n := Nat.div_lt_self (by omega) (by omega)
      rw [ih (n / 10) hd acc]
      simp only [List.foldl_cons, List.foldl_nil, List.length_append,
        List.length_singleton]
      rw [digitChar_toNat (n % 10) (by omega)]
      rw [pow_succ]
      have : n / 10 * 10 + n % 10 = n := by omega
      ring_nf
      omega

theorem charsVal_replicate_zero : ∀ (k : Nat),
    (List.replicate k '0').foldl (fun acc c => acc * 10 + (c.toNat - 48)) 0 = 0 := by
  intro k
  induction k with
  | zero => rfl
  | succ k ih => simpa [List.replicate_succ] using ih

theorem charsVal_padLeft_natChars (w n : Nat) : charsVal (padLeft w (natChars n)) = n := by
  unfold charsVal padLeft
  rw [List.foldl_append, charsVal_replicate_zero, charsVal_go_natChars]
  ring

theorem padLeft_natChars_inj {w a b : Nat}
    (h : padLeft w (natChars a) = padLeft w (natChars b)) : a = b := by
  have := congrArg charsVal h
  rwa [charsVal_padLeft_natChars, charsVal_padLeft_natChars] at this

theorem append_comma_inj : ∀ (l₁ : List Char) (r₁ : List Char) (l₂ r₂ : List Char),
    (∀ c ∈ l₁, c ≠ ',') → (∀ c ∈ l₂, c ≠ ',') →
    l₁ ++ ',' :: r₁ = l₂ ++ ',' :: r₂ → l₁ = l₂ ∧ r₁ = r₂ := by
  intro l₁
  induction l₁ with
  | nil =>
    intro r₁ l₂ r₂ _ h₂ heq
    cases l₂ with
    | nil => simpa using heq
    | cons b t =>
      simp only [List.nil_append, List.cons_append, List.cons.injEq] at heq
      exact absurd heq.1.symm (h₂ b (by simp))
  | cons a t ih =>
    intro r₁ l₂ r₂ h₁ h₂ heq
    cases l₂ with
    | nil =>
      simp only [List.cons_append, List.nil_append, List.cons.injEq] at heq
      exact absurd heq.1 (h₁ a (by simp))
    | cons b t₂ =>
      simp only [List.cons_append, List.cons.injEq] at heq
      obtain ⟨h3, h4⟩ := ih r₁ t₂ r₂ (fun c hc => h₁ c (by simp [hc]))
        (fun c hc => h₂ c (by simp [hc])) heq.2
      exact ⟨by rw [heq.1, h3], h4⟩

theorem templateTileName_inj {c0 c1 x y x' y' : Nat}
    (h : templateTileName c0 c1 x y = templateTileName c0 c1 x' y') :
    x = x' ∧ y = y' := by
  unfold templateTileName at h
  have hdata : (padLeft 4 (natChars (c0 + x / 1000)) ++ ',' ::
      (padLeft 4 (natChars (c1 + y / 1000)) ++ ',' ::
       (padLeft 3 (natChars (x % 1000)) ++ ',' ::
        padLeft 3 (natChars (y % 1000)))))
      = padLeft 4 (natChars (c0 + x' / 1000)) ++ ',' ::
      (padLeft 4 (natChars (c1 + y' / 1000)) ++ ',' ::
       (padLeft 3 (natChars (x' % 1000)) ++ ',' ::
        padLeft 3 (natChars (y' % 1000)))) := congrArg String.data h
  obtain ⟨hA, h1⟩ := append_comma_inj _ _ _ _
    (padLeft_natChars_ne_comma _ _) (padLeft_natChars_ne_comma _ _) hdata
  obtain ⟨hB, h2⟩ := append_comma_inj _ _ _ _
    (padLeft_natChars_ne_comma _ _) (padLeft_natChars_ne_comma _ _) h1
  obtain ⟨hC, hD⟩ := append_comma_inj _ _ _ _
    (padLeft_natChars_ne_comma _ _) (padLeft_natChars_ne_comma _ _) h2
  have hx1 : c0 + x / 1000 = c0 + x' / 1000 := padLeft_natChars_inj hA
  have hy1 : c1 + y / 1000 = c1 + y' / 1000 := padLeft_natChars_inj hB
  have hx2 : x % 1000 = x' % 1000 := padLeft_natChars_inj hC
  have hy2 : y % 1000 = y' % 1000 := padLeft_natChars_inj hD
  omega

/-! ## Slicing-loop lemmas -/

theorem sliceSegsAux_mem (ts p0 ext : Nat) :
    ∀ (fuel x : Nat), p0 ≤ x → ∀ sd ∈ sliceSegsAux ts p0 ext fuel x,
      p0 ≤ sd.1 ∧ sd.1 < ext + p0 ∧ sd.2 = sliceStep ts p0 ext sd.1 := by
  intro fuel
  induction fuel with
  | zero => intro x _ sd hsd; simp [sliceSegsAux] at hsd
  | succ fuel ih =>
    intro x hx sd hsd
    simp only [sliceSegsAux] at hsd
    by_cases hlt : x < ext + p0
    · rw [if_pos hlt] at hsd
      rcases List.mem_cons.1 hsd with h | h
      · subst h; exact ⟨hx, hlt, rfl⟩
      · exact ih (x + sliceStep ts p0 ext x) (by omega) sd h
    · rw [if_neg hlt] at hsd; simp at hsd

theorem sliceSegsAux_lb (ts p0 ext : Nat) :
    ∀ (fuel x : Nat), ∀ sd ∈ sliceSegsAux ts p0 ext fuel x, x ≤ sd.1 := by
  intro fuel
  induction fuel with
  | zero => intro x sd hsd; simp [sliceSegsAux] at hsd
  | succ fuel ih =>
    intro x sd hsd
    simp only [sliceSegsAux] at hsd
    by_cases hlt : x < ext + p0
    · rw [if_pos hlt] at hsd
      rcases List.mem_cons.1 hsd with h | h
      · subst h; exact le_rfl
      · have := ih (x + sliceStep ts p0 ext x) sd h; omega
    · rw [if_neg hlt] at hsd; simp at hsd

theorem sliceSegsAux_pairwise (ts p0 ext : Nat) (hts : 0 < ts) :
    ∀ (fuel x : Nat), p0 ≤ x →
      List.Pairwise (fun a b : Nat × Nat => a.1 < b.1) (sliceSegsAux ts p0 ext fuel x) := by
  intro fuel
  induction fuel with
  | zero => intro x _; simp [sliceSegsAux]
  | succ fuel ih =>
    intro x hx
    simp only [sliceSegsAux]
    by_cases hlt : x < ext + p0
    · rw [if_pos hlt]
      have hm : x % ts < ts := Nat.mod_lt x hts
      have hstep1 : 1 ≤ sliceStep ts p0 ext x := by unfold sliceStep; omega
      refine List.Pairwise.cons (fun b hb => ?_) (ih (x + sliceStep ts p0 ext x) (by omega))
      have := sliceSegsAux_lb ts p0 ext fuel (x + sliceStep ts p0 ext x) b hb
      omega
    · rw [if_neg hlt]; simp

theorem sliceSegsAux_countP (ts p0 ext : Nat) (hts : 0 < ts) (v : Nat) :
    ∀ (fuel x : Nat), p0 ≤ x → ext + p0 - x ≤ fuel →
      (sliceSegsAux ts p0 ext fuel x).countP
          (fun sd => decide (sd.1 ≤ v ∧ v < sd.1 + sd.2))
        = if x ≤ v ∧ v < ext + p0 then 1 else 0 := by
  intro fuel
  induction fuel with
  | zero =>
    intro x hx hf
    simp only [sliceSegsAux, List.countP_nil]
    rw [if_neg (by omega)]
  | succ fuel ih =>
    intro x hx hf
    simp only [sliceSegsAux]
    have hm : x % ts < ts := Nat.mod_lt x hts
    by_cases hlt : x < ext + p0
    · rw [if_pos hlt]
      have hstep1 : 1 ≤ sliceStep ts p0 ext x := by unfold sliceStep; omega
      have hstep2 : sliceStep ts p0 ext x ≤ ext + p0 - x := by unfold sliceStep; omega
      rw [List.countP_cons, ih (x + sliceStep ts p0 ext x) (by omega) (by omega)]
      simp only [decide_eq_true_eq]
      split_ifs <;> omega
    · rw [if_neg hlt, List.countP_nil, if_neg (by omega)]

theorem sum_map_eq_countP (l : List α) (f : α → Nat) (q : α → Bool)
    (h : ∀ a ∈ l, f a = if q a then 1 else 0) : (l.map f).sum = l.countP q := by
  induction l with
  | nil => rfl
  | cons a t ih =>
    rw [List.map_cons, List.sum_cons, List.countP_cons,
      ih (fun b hb => h b (List.mem_cons_of_mem a hb)), h a (List.mem_cons_self a t)]
    exact Nat.add_comm _ _

/-- Every region carries the loop's `drawSize` for its own coordinates and
lies inside the anchored bounding box. -/
theorem sliceRegions_mem (ts px0 py0 W H c0 c1 : Nat) :
    ∀ reg ∈ sliceRegions ts px0 py0 W H c0 c1,
      reg.key = templateTileName c0 c1 reg.x reg.y ∧
      px0 ≤ reg.x ∧ reg.x < W + px0 ∧ reg.w = sliceStep ts px0 W reg.x ∧
      py0 ≤ reg.y ∧ reg.y < H + py0 ∧ reg.h = sliceStep ts py0 H reg.y := by
  intro reg hreg
  unfold sliceRegions at hreg
  rcases List.mem_flatMap.1 hreg with ⟨yd, hyd, hmap⟩
  rcases List.mem_map.1 hmap with ⟨xd, hxd, rfl⟩
  obtain ⟨hy0, hy1, hy2⟩ := sliceSegsAux_mem ts py0 H H py0 le_rfl yd hyd
  obtain ⟨hx0, hx1, hx2⟩ := sliceSegsAux_mem ts px0 W W px0 le_rfl xd hxd
  exact ⟨rfl, hx0, hx1, hx2, hy0, hy1, hy2⟩

/-- C5: for every image with `W, H ≥ 1`, every non-negative anchor offset
and every positive `tileSize`, the regions produced by `createTemplateTiles`
slicing exactly partition the `W × H` bounding box — each absolute pixel of
the anchored box is covered by exactly one region — and each region's extent
along each axis is `min(tileSize - coord % tileSize, remainingExtent)`,
hence between 1 and `tileSize`. -/
theorem sliceRegions_partition (ts px0 py0 W H c0 c1 : Nat) (hts : 0 < ts)
    (_hW : 1 ≤ W) (_hH : 1 ≤ H) :
    (∀ i j, i < W → j < H →
      (sliceRegions ts px0 py0 W H c0 c1).countP
        (fun reg => decide (reg.x ≤ px0 + i ∧ px0 + i < reg.x + reg.w ∧
                            reg.y ≤ py0 + j ∧ py0 + j < reg.y + reg.h)) = 1) ∧
    (∀ reg ∈ sliceRegions ts px0 py0 W H c0 c1,
      reg.w = min (ts - reg.x % ts) (W - (reg.x - px0)) ∧
      reg.h = min (ts - reg.y % ts) (H - (reg.y - py0)) ∧
      1 ≤ reg.w ∧ reg.w ≤ ts ∧ 1 ≤ reg.h ∧ reg.h ≤ ts) := by
  constructor
  · intro i j hi hj
    unfold sliceRegions
    rw [List.countP_flatMap]
    rw [sum_map_eq_countP _ _
      (fun yd : Nat × Nat => decide (yd.1 ≤ py0 + j ∧ py0 + j < yd.1 + yd.2))
      ?_]
    · have := sliceSegsAux_countP ts py0 H hts (py0 + j) H py0 le_rfl (by omega)
      rw [show sliceSegs ts py0 H = sliceSegsAux ts py0 H H py0 from rfl, this,
        if_pos (by omega)]
    · intro yd hyd
      simp only [Function.comp_apply, List.countP_map]
      by_cases hy : yd.1 ≤ py0 + j ∧ py0 + j < yd.1 + yd.2
      · rw [if_pos (show decide (yd.1 ≤ py0 + j ∧ py0 + j < yd.1 + yd.2) = true by
          simpa using hy)]
        rw [List.countP_congr (q := fun xd : Nat × Nat =>
            decide (xd.1 ≤ px0 + i ∧ px0 + i < xd.1 + xd.2))
          (fun xd _ => by simp only [Function.comp_apply, decide_eq_true_eq]; tauto)]
        have := sliceSegsAux_countP ts px0 W hts (px0 + i) W px0 le_rfl (by omega)
        rw [show sliceSegs ts px0 W = sliceSegsAux ts px0 W W px0 from rfl, this,
          if_pos (by omega)]
      · rw [if_neg (show ¬ decide (yd.1 ≤ py0 + j ∧ py0 + j < yd.1 + yd.2) = true by
          simpa using hy)]
        apply List.countP_eq_zero.2
        intro xd _
        simp only [Function.comp_apply, decide_eq_true_eq]
        tauto
  · intro reg hreg
    obtain ⟨_, hx0, hx1, hw, hy0, hy1, hh⟩ :=
      sliceRegions_mem ts px0 py0 W H c0 c1 reg hreg
    have hmx : reg.x % ts < ts := Nat.mod_lt _ hts
    have hmy : reg.y % ts < ts := Nat.mod_lt _ hts
    unfold sliceStep at hw hh
    exact ⟨hw, hh, by omega, by omega, by omega, by omega⟩

/-- C8: the tile keys produced by one slicing run are pairwise distinct —
each key identifies exactly one region. -/
theorem sliceRegions_keys_nodup (ts px0 py0 W H c0 c1 : Nat) (hts : 0 < ts) :
    ((sliceRegions ts px0 py0 W H c0 c1).map Region.key).Nodup := by
  unfold sliceRegions
  rw [List.map_flatMap]
  apply List.nodup_flatMap.2
  constructor
  · intro yd _
    rw [List.map_map]
    apply List.Nodup.map_on
    · intro xd hxd xd' hxd' hkey
      simp only [Function.comp_apply] at hkey
      have hx := (templateTileName_inj hkey).1
      obtain ⟨_, _, hw⟩ := sliceSegsAux_mem ts px0 W W px0 le_rfl xd hxd
      obtain ⟨_, _, hw'⟩ := sliceSegsAux_mem ts px0 W W px0 le_rfl xd' hxd'
      have : xd.2 = xd'.2 := by rw [hw, hw', hx]
      exact Prod.ext hx this
    · exact (sliceSegsAux_pairwise ts px0 W hts W px0 le_rfl).imp
        (fun {a b} hab heq => by rw [heq] at hab; exact lt_irrefl _ hab)
  · apply (sliceSegsAux_pairwise ts py0 H hts H py0 le_rfl).imp
    intro yd yd' hlt
    intro k hk hk'
    simp only [List.map_map, List.mem_map, Function.comp_apply] at hk hk'
    rcases hk with ⟨xd, _, hkey1⟩
    rcases hk' with ⟨xd', _, hkey2⟩
    have := (templateTileName_inj (hkey1.trans hkey2.symm)).2
    omega

/-- C4 counterexample: with `tileSize = 2` and a `3 × 1` image anchored at
`(0, 0, 0, 0)`, the second region starts at absolute pixel `(2, 0)`; the
claim's formula (fields from `tileSize`) demands key
`"0001,0000,000,000"`, but the produced key divides by the constant 1000
and is `"0000,0000,002,000"`. -/
theorem tileKey_counterexample :
    (sliceRegions 2 0 0 3 1 0 0)[1]? =
      some { key := "0000,0000,002,000", x := 2, y := 0, w := 1, h := 1 } ∧
    specTileKey 2 0 0 2 0 = "0001,0000,000,000" ∧
    ("0000,0000,002,000" : String) ≠ "0001,0000,000,000" := by
  refine ⟨by decide, by decide, by decide⟩

/-- C4 (amended): every region of a slicing run is stored under the key
whose first two fields are the anchor tile coordinate plus
`⌊absoluteCoord / 1000⌋` and whose last two fields are
`absoluteCoord % 1000` (ranges 0–999), the divisor being the constant
`1000` rather than the template's `tileSize`; at the default
`tileSize = 1000` this is exactly the claim's formula, shown here against
the spec-modelled key. -/
theorem tileKey_fields_at_tileSize_1000 (px0 py0 W H c0 c1 : Nat) :
    ∀ reg ∈ sliceRegions 1000 px0 py0 W H c0 c1,
      reg.key = specTileKey 1000 c0 c1 reg.x reg.y ∧
      reg.x % 1000 < 1000 ∧ reg.y % 1000 < 1000 := by
  intro reg hreg
  obtain ⟨hkey, _⟩ := sliceRegions_mem 1000 px0 py0 W H c0 c1 reg hreg
  exact ⟨hkey, by omega, by omega⟩

theorem tileKey_fields_witness :
    (({ key := "0006,0007,000,000", x := 1000, y := 0, w := 10, h := 1 } : Region)
        ∈ sliceRegions 1000 990 0 20 1 5 7) ∧
    ({ key := "0006,0007,000,000", x := 1000, y := 0, w := 10, h := 1 } : Region).key
      = specTileKey 1000 5 7 1000 0 :=
  ⟨by decide, (tileKey_fields_at_tileSize_1000 990 0 20 1 5 7 _ (by decide)).1⟩

theorem sliceRegions_partition_witness :
    ((0:Nat) < 2 ∧ (1:Nat) ≤ 3 ∧ (1:Nat) ≤ 2) ∧
    (sliceRegions 2 1 0 3 2 0 0).countP
      (fun reg => decide (reg.x ≤ 1 + 1 ∧ 1 + 1 < reg.x + reg.w ∧
                          reg.y ≤ 0 + 0 ∧ 0 + 0 < reg.y + reg.h)) = 1 :=
  ⟨⟨by decide, by decide, by decide⟩,
    (sliceRegions_partition 2 1 0 3 2 0 0 (by decide) (by decide) (by decide)).1
      1 0 (by decide) (by decide)⟩

theorem sliceRegions_keys_nodup_witness :
    (0:Nat) < 2 ∧ ((sliceRegions 2 0 0 3 1 0 0).map Region.key).Nodup :=
  ⟨by decide, sliceRegions_keys_nodup 2 0 0 3 1 0 0 (by decide)⟩

/-- C1 counterexample: with live auto-color on and the zoom mode
zoomed-out, the bitmap handed to the draw loop is still read from the
masked auto map (`sourceMap`), not from the full-variant map the claim's
colorMode × zoomMode crossing selects — `sourceMapFull` is computed but
never drawn. -/
theorem drawnBitmap_zoomedOut_not_full :
    (drawnTemplateBitmap true true tplDraw "0000,0000").map TemplateDraw.bitmap
      = some (some bmAutoMasked) ∧
    (specSelectedMap true true tplDraw).lookup keyEx = some bmAutoFull ∧
    bmAutoMasked ≠ bmAutoFull :=
  ⟨by decide, by decide, by decide⟩

/-- C1 (amended): the auto vs. original chunk map is chosen by the live
color mode, but the zoom mode does not participate in bitmap selection:
in both zoom modes the drawn bitmap is the one the spec's crossing assigns
to the zoomed-in (masked) mode, and the zoom mode only selects the opacity
(`zoomOpacity` when zoomed out, full opacity when zoomed in). -/
theorem drawnBitmap_ignores_zoomMode (autoColorLive zoomedOut : Bool)
    (t : Template) (pfx : String) :
    (drawnTemplateBitmap autoColorLive zoomedOut t pfx).map TemplateDraw.bitmap
      = (firstMatchingTileKey t pfx).map
          (fun tile => (specSelectedMap autoColorLive false t).lookup tile) ∧
    (drawnTemplateBitmap autoColorLive zoomedOut t pfx).map TemplateDraw.alpha
      = (firstMatchingTileKey t pfx).map
          (fun _ => if zoomedOut then DrawAlpha.zoomOpacityVal
                    else DrawAlpha.fullOpacity) := by
  unfold drawnTemplateBitmap
  cases h : firstMatchingTileKey t pfx with
  | none => simp
  | some tile =>
    have hmap : sourceMapOf autoColorLive t = specSelectedMap autoColorLive false t := by
      unfold sourceMapOf specSelectedMap
      cases autoColorLive <;> simp
    exact ⟨by simp [hmap], by simp⟩

/-- C6: a source pixel whose RGB is exactly (222, 250, 206) is the sentinel
regardless of its source alpha: on even `(x + y)` both buffers receive
`(0, 0, 0)` with alpha 32, on odd `(x + y)` both buffers receive alpha 0,
and the index-grid entry is 0 in both cases. -/
theorem sentinel_pixel_rule (palette : List PaletteEntry) (src : RGBA) (x y : Nat)
    (hr : src.r = 222) (hg : src.g = 250) (hb : src.b = 206) :
    ((x + y) % 2 = 0 →
      classifyPixel palette src x y =
        { orig := ⟨0, 0, 0, 32⟩, mapped := ⟨0, 0, 0, 32⟩, idx := 0 }) ∧
    ((x + y) % 2 ≠ 0 →
      (classifyPixel palette src x y).orig.a = 0 ∧
      (classifyPixel palette src x y).mapped.a = 0 ∧
      (classifyPixel palette src x y).idx = 0) := by
  unfold classifyPixel
  rw [if_pos ⟨hr, hg, hb⟩]
  constructor
  · intro hpar; rw [if_pos hpar]
  · intro hpar; rw [if_neg hpar]; exact ⟨rfl, rfl, rfl⟩

theorem sentinel_pixel_rule_witness :
    ((222 : Nat) = 222 ∧ (250 : Nat) = 250 ∧ (206 : Nat) = 206 ∧ (0 + 0) % 2 = 0) ∧
    classifyPixel [] ⟨222, 250, 206, 0⟩ 0 0 =
      { orig := ⟨0, 0, 0, 32⟩, mapped := ⟨0, 0, 0, 32⟩, idx := 0 } :=
  ⟨⟨rfl, rfl, rfl, rfl⟩,
    (sentinel_pixel_rule [] ⟨222, 250, 206, 0⟩ 0 0 rfl rfl rfl).1 rfl⟩

/-- C9: once `colorIndexTiles[key]` is populated, the lazy reconstruction
returns immediately, leaving the template — its index store included —
entirely unchanged. -/
theorem ensureIndexMap_idempotent (palette : List PaletteEntry) (drawMult : Nat)
    (tpl : Template) (key : String) (v : IndexTile)
    (h : tpl.colorIndexTiles.lookup key = some v) :
    ensureIndexMapForTemplateTile palette drawMult tpl key = tpl := by
  unfold ensureIndexMapForTemplateTile
  by_cases hk : key = ""
  · rw [if_pos hk]
  · rw [if_neg hk, if_pos (by rw [h]; rfl)]

theorem ensureIndexMap_idempotent_witness :
    tplIdx.colorIndexTiles.lookup keyEx = some ⟨1, 1, [3]⟩ ∧
    ensureIndexMapForTemplateTile palBW 3 tplIdx keyEx = tplIdx :=
  ⟨by decide,
    ensureIndexMap_idempotent palBW 3 tplIdx keyEx ⟨1, 1, [3]⟩ (by decide)⟩

/-- C10: `setTemplateEnabled` with an `idKey` matching no loaded template
returns before any mutation: the state — enabled flags, `cacheVersion`,
merged-tile cache, and the persistence store — is exactly unchanged. -/
theorem setTemplateEnabled_miss_noop (st : ManagerState) (idKey : String)
    (enabled : Bool)
    (h : ∀ t ∈ st.templatesArray, effectiveIdKey t ≠ idKey) :
    setTemplateEnabled st idKey enabled = st := by
  unfold setTemplateEnabled
  have hf : st.templatesArray.find? (fun t => effectiveIdKey t = idKey) = none :=
    List.find?_eq_none.2 (fun x hx => by simpa using h x hx)
  rw [hf]

theorem setTemplateEnabled_miss_noop_witness :
    (∀ t ∈ stOne.templatesArray, effectiveIdKey t ≠ "1 B") ∧
    setTemplateEnabled stOne "1 B" false = stOne :=
  ⟨by decide, setTemplateEnabled_miss_noop stOne "1 B" false (by decide)⟩

/-- C2: a creation call against a full registry is rejected with no
mutation: the template array, the persisted-JSON `templates` object,
`cacheVersion`, the merged-tile cache, and the persistence store are all
unchanged (the only touched field is the lazily-initialised `templatesJSON`
wrapper, whose `templates` object is empty both before and after when it
was absent). -/
theorem createTemplate_capacity_rejected (palette : List PaletteEntry)
    (encode : Bitmap → String) (st : ManagerState) (img : Img) (name : String)
    (coords : Nat × Nat × Nat × Nat) (autoColor : Bool) (authorEncoded : String)
    (h : st.templatesArray.length ≥ st.maxTemplates) :
    (createTemplate palette encode st img name coords autoColor authorEncoded).templatesArray
      = st.templatesArray ∧
    templatesOf (createTemplate palette encode st img name coords autoColor
      authorEncoded).templatesJSON = templatesOf st.templatesJSON ∧
    (createTemplate palette encode st img name coords autoColor authorEncoded).cacheVersion
      = st.cacheVersion ∧
    (createTemplate palette encode st img name coords autoColor authorEncoded).mergedTileCache
      = st.mergedTileCache ∧
    (createTemplate palette encode st img name coords autoColor authorEncoded).store
      = st.store := by
  have hfull : createTemplate palette encode st img name coords autoColor authorEncoded
      = { st with templatesJSON := some (st.templatesJSON.getD
            (createJSON st.name st.version st.templatesVersion)) } := by
    unfold createTemplate
    exact if_pos h
  rw [hfull]
  refine ⟨rfl, ?_, rfl, rfl, rfl⟩
  cases st.templatesJSON with
  | none => rfl
  | some j => rfl

theorem createTemplate_capacity_witness :
    stFull.templatesArray.length ≥ stFull.maxTemplates ∧
    (createTemplate palBW encodeEx stFull imgEx "T" (0, 0, 0, 0) false "$Z").templatesArray
      = stFull.templatesArray ∧
    (createTemplate palBW encodeEx stFull imgEx "T" (0, 0, 0, 0) false "$Z").cacheVersion
      = stFull.cacheVersion ∧
    (createTemplate palBW encodeEx stFull imgEx "T" (0, 0, 0, 0) false "$Z").store
      = stFull.store :=
  ⟨by decide,
    (createTemplate_capacity_rejected palBW encodeEx stFull imgEx "T" (0, 0, 0, 0)
      false "$Z" (by decide)).1,
    (createTemplate_capacity_rejected palBW encodeEx stFull imgEx "T" (0, 0, 0, 0)
      false "$Z" (by decide)).2.2.1,
    (createTemplate_capacity_rejected palBW encodeEx stFull imgEx "T" (0, 0, 0, 0)
      false "$Z" (by decide)).2.2.2.2⟩

/-- C3 counterexample: removing an `idKey` that matches no loaded template
is not a no-op — `cacheVersion` is bumped, the merged-tile cache is
cleared, and a persistence write happens anyway. -/
theorem removeTemplate_miss_mutates :
    (∀ t ∈ stOne.templatesArray, effectiveIdKey t ≠ "1 B") ∧
    (removeTemplate stOne "1 B").cacheVersion ≠ stOne.cacheVersion ∧
    (removeTemplate stOne "1 B").mergedTileCache ≠ stOne.mergedTileCache ∧
    (removeTemplate stOne "1 B").store ≠ stOne.store :=
  ⟨by decide, by decide, by decide, by decide⟩

/-- C3 (amended): `removeTemplate` removes exactly the matching templates
when present, but bumps `cacheVersion`, clears the merged-tile cache, and
writes the persistence store unconditionally — on a miss the template
array and the persisted JSON are nevertheless unchanged. -/
theorem removeTemplate_always_invalidates (st : ManagerState) (idKey : String) :
    (removeTemplate st idKey).cacheVersion = st.cacheVersion + 1 ∧
    (removeTemplate st idKey).mergedTileCache = [] ∧
    (removeTemplate st idKey).store = some (removeTemplate st idKey).templatesJSON ∧
    (∀ t ∈ (removeTemplate st idKey).templatesArray, effectiveIdKey t ≠ idKey) ∧
    (∀ t ∈ st.templatesArray, effectiveIdKey t ≠ idKey →
        t ∈ (removeTemplate st idKey).templatesArray) ∧
    ((∀ t ∈ st.templatesArray, effectiveIdKey t ≠ idKey) →
      (removeTemplate st idKey).templatesArray = st.templatesArray ∧
      (removeTemplate st idKey).templatesJSON = st.templatesJSON) := by
  have harr : (removeTemplate st idKey).templatesArray
      = st.templatesArray.filter (fun x => effectiveIdKey x ≠ idKey) := rfl
  refine ⟨rfl, rfl, rfl, ?_, ?_, ?_⟩
  · intro t ht
    rw [harr] at ht
    simpa using (List.mem_filter.1 ht).2
  · intro t ht hne
    rw [harr]
    exact List.mem_filter.2 ⟨ht, by simpa using hne⟩
  · intro hmiss
    have hfilter : st.templatesArray.filter (fun x => effectiveIdKey x ≠ idKey)
        = st.templatesArray :=
      List.filter_eq_self.2 (fun a ha => by simpa using hmiss a ha)
    refine ⟨by rw [harr, hfilter], ?_⟩
    show (if st.templatesArray.length
          ≠ (st.templatesArray.filter (fun x => effectiveIdKey x ≠ idKey)).length ∧
          st.templatesJSON.elim false (fun j => (j.templates.lookup idKey).isSome)
        then st.templatesJSON.map (fun j =>
          { j with templates := deleteA j.templates idKey })
        else st.templatesJSON) = st.templatesJSON
    rw [if_neg (fun hcon => hcon.1 (by rw [hfilter]))]

theorem removeTemplate_always_invalidates_witness :
    (∀ t ∈ stOne.templatesArray, effectiveIdKey t ≠ "1 B") ∧
    (removeTemplate stOne "1 B").cacheVersion = stOne.cacheVersion + 1 ∧
    (removeTemplate stOne "1 B").templatesArray = stOne.templatesArray :=
  ⟨by decide, (removeTemplate_always_invalidates stOne "1 B").1,
    ((removeTemplate_always_invalidates stOne "1 B").2.2.2.2.2 (by decide)).1⟩

/-! ## Nearest-color search lemmas -/

theorem scanRGBs_cons (c : PaletteEntry) (rest : List PaletteEntry) :
    scanRGBs (c :: rest) =
      if c.name = "Transparent" then scanRGBs rest
      else
        match c.rgb with
        | none => scanRGBs rest
        | some p => p :: scanRGBs rest := by
  unfold scanRGBs
  rw [List.filterMap_cons]
  by_cases hname : c.name = "Transparent"
  · rw [if_pos hname, if_pos hname]
  · rw [if_neg hname, if_neg hname]
    cases c.rgb <;> rfl

theorem scanRGBs_eq_filter (l : List PaletteEntry) :
    scanRGBs l
      = (l.filter (fun e => e.name ≠ "Transparent")).filterMap PaletteEntry.rgb := by
  induction l with
  | nil => rfl
  | cons c rest ih =>
    rw [scanRGBs_cons, List.filter_cons]
    by_cases hname : c.name = "Transparent"
    · rw [if_pos hname, ih,
        if_neg (show ¬ (decide (c.name ≠ "Transparent") = true) by simp [hname])]
    · rw [if_neg hname,
        if_pos (show decide (c.name ≠ "Transparent") = true by simpa using hname),
        List.filterMap_cons]
      rcases hrgb : c.rgb with _ | p <;> simp only [hrgb] <;> rw [ih]

theorem length_filterMap_of_isSome (l : List PaletteEntry)
    (h : ∀ e ∈ l, (PaletteEntry.rgb e).isSome) :
    (l.filterMap PaletteEntry.rgb).length = l.length := by
  induction l with
  | nil => rfl
  | cons c rest ih =>
    rw [List.filterMap_cons]
    rcases hc : c.rgb with _ | p
    · have := h c (List.mem_cons_self c rest)
      rw [hc] at this
      simp at this
    · simp only [List.length_cons]
      rw [ih (fun e he => h e (List.mem_cons_of_mem c he))]

theorem firstMinBy_spec (f : α → Int) :
    ∀ (l : List α), l ≠ [] → ∃ x l₁ l₂, firstMinBy f l = some x ∧
      l = l₁ ++ x :: l₂ ∧ (∀ q ∈ l₁, f x < f q) ∧ (∀ q ∈ l₂, f x ≤ f q) := by
  intro l
  induction l with
  | nil => intro h; exact absurd rfl h
  | cons a t ih =>
    intro _
    by_cases ht : t = []
    · subst ht
      exact ⟨a, [], [], rfl, rfl, by simp, by simp⟩
    · obtain ⟨x, l₁, l₂, hfm, hsplit, h₁, h₂⟩ := ih ht
      by_cases hle : f a ≤ f x
      · refine ⟨a, [], t, ?_, rfl, by simp, ?_⟩
        · simp [firstMinBy, hfm, hle]
        · intro q hq
          rw [hsplit] at hq
          rcases List.mem_append.1 hq with h | h
          · exact le_trans hle (le_of_lt (h₁ q h))
          · rcases List.mem_cons.1 h with rfl | h
            · exact hle
            · exact le_trans hle (h₂ q h)
      · refine ⟨x, a :: l₁, l₂, ?_, by rw [hsplit]; rfl, ?_, h₂⟩
        · simp [firstMinBy, hfm, hle]
        · intro q hq
          rcases List.mem_cons.1 hq with rfl | h
          · omega
          · exact h₁ q h

theorem nearestRGBAux_cons (r g b : Nat) (c : PaletteEntry)
    (rest : List PaletteEntry) (best : Option (Nat × Nat × Nat))
    (bestDist : Option Int) :
    nearestRGBAux r g b (c :: rest) best bestDist =
      if c.name = "Transparent" then nearestRGBAux r g b rest best bestDist
      else
        match c.rgb with
        | none => nearestRGBAux r g b rest best bestDist
        | some p =>
          if ltInf (rgbDist r g b p) bestDist then
            nearestRGBAux r g b rest (some p) (some (rgbDist r g b p))
          else nearestRGBAux r g b rest best bestDist := by
  conv_lhs => rw [nearestRGBAux]

theorem firstMinBy_cons (f : α → Int) (x : α) (xs : List α) :
    firstMinBy f (x :: xs) =
      (firstMinBy f xs).elim (some x)
        (fun y => if f x ≤ f y then some x else some y) := by
  rcases h : firstMinBy f xs with _ | y <;> simp [firstMinBy, h]

theorem nearestRGBAux_acc (r g b : Nat) :
    ∀ (l : List PaletteEntry) (v : Nat × Nat × Nat) (dv : Int),
      nearestRGBAux r g b l (some v) (some dv) =
        (firstMinBy (rgbDist r g b) (scanRGBs l)).elim (some v)
          (fun w => if rgbDist r g b w < dv then some w else some v) := by
  intro l
  induction l with
  | nil => intro v dv; rfl
  | cons c rest ih =>
    intro v dv
    rw [nearestRGBAux_cons, scanRGBs_cons]
    by_cases hname : c.name = "Transparent"
    · rw [if_pos hname, if_pos hname, ih]
    · rw [if_neg hname, if_neg hname]
      rcases hrgb : c.rgb with _ | p
      · simp only [hrgb]
        exact ih v dv
      · simp only [hrgb, ltInf]
        rw [firstMinBy_cons, ih p (rgbDist r g b p), ih v dv]
        rcases hF : firstMinBy (rgbDist r g b) (scanRGBs rest) with _ | w
        · simp only [Option.elim_none, Option.elim_some, decide_eq_true_eq]
        · simp only [Option.elim_some, decide_eq_true_eq]
          by_cases hple : rgbDist r g b p ≤ rgbDist r g b w
          · rw [if_pos hple]
            simp only [Option.elim_some]
            split_ifs <;> first | rfl | (exfalso; omega)
          · rw [if_neg hple]
            simp only [Option.elim_some]
            split_ifs <;> first | rfl | (exfalso; omega)

theorem nearestRGBAux_none (r g b : Nat) (l : List PaletteEntry) :
    nearestRGBAux r g b l none none
      = firstMinBy (rgbDist r g b) (scanRGBs l) := by
  induction l with
  | nil => rfl
  | cons c rest ih =>
    rw [nearestRGBAux_cons, scanRGBs_cons]
    by_cases hname : c.name = "Transparent"
    · rw [if_pos hname, if_pos hname, ih]
    · rw [if_neg hname, if_neg hname]
      rcases hrgb : c.rgb with _ | p
      · simp only [hrgb]
        exact ih
      · simp only [hrgb, ltInf, if_pos rfl]
        rw [firstMinBy_cons, nearestRGBAux_acc r g b rest p (rgbDist r g b p)]
        rcases hF : firstMinBy (rgbDist r g b) (scanRGBs rest) with _ | w
        · simp
        · simp only [Option.elim_some]
          split_ifs <;> first | rfl | (exfalso; omega)

/-- C7: on a well-formed palette (every non-"Transparent" entry carries an
rgb triple), `#nearestPaletteRGB` scans exactly the entries not named
"Transparent" (none of them is dropped), computes squared Euclidean RGB
distance, and returns the first scanned triple attaining the minimum
(strictly earlier entries beat ties); with no searchable entries it
returns the input unchanged.  In particular it agrees with the
spec-modelled `specNearestColor`. -/
theorem nearestPaletteRGB_spec (palette : List PaletteEntry) (r g b : Nat)
    (hwf : ∀ e ∈ palette, e.name ≠ "Transparent" → (PaletteEntry.rgb e).isSome) :
    (scanRGBs palette).length
      = (palette.filter (fun e => e.name ≠ "Transparent")).length ∧
    nearestPaletteRGB palette r g b = specNearestColor palette r g b ∧
    (scanRGBs palette = [] → nearestPaletteRGB palette r g b = (r, g, b)) ∧
    (scanRGBs palette ≠ [] → ∃ p l₁ l₂,
      nearestPaletteRGB palette r g b = p ∧
      scanRGBs palette = l₁ ++ p :: l₂ ∧
      (∀ q ∈ l₁, rgbDist r g b p < rgbDist r g b q) ∧
      (∀ q ∈ l₂, rgbDist r g b p ≤ rgbDist r g b q)) := by
  have hcode : nearestPaletteRGB palette r g b
      = (firstMinBy (rgbDist r g b) (scanRGBs palette)).getD (r, g, b) := by
    unfold nearestPaletteRGB
    rw [nearestRGBAux_none]
  refine ⟨?_, ?_, ?_, ?_⟩
  · rw [scanRGBs_eq_filter]
    apply length_filterMap_of_isSome
    intro e he
    exact hwf e (List.mem_filter.1 he).1 (by simpa using (List.mem_filter.1 he).2)
  · rw [hcode]
    unfold specNearestColor
    rw [← scanRGBs_eq_filter]
  · intro hempty
    rw [hcode, hempty]
    rfl
  · intro hne
    obtain ⟨x, l₁, l₂, hfm, hsplit, h₁, h₂⟩ :=
      firstMinBy_spec (rgbDist r g b) (scanRGBs palette) hne
    exact ⟨x, l₁, l₂, by rw [hcode, hfm]; rfl, hsplit, h₁, h₂⟩

theorem nearestPaletteRGB_spec_witness :
    (∀ e ∈ palBW, e.name ≠ "Transparent" → (PaletteEntry.rgb e).isSome) ∧
    nearestPaletteRGB palBW 10 10 10 = specNearestColor palBW 10 10 10 :=
  ⟨by decide, (nearestPaletteRGB_spec palBW 10 10 10 (by decide)).2.1⟩
